import Mathlib

/-!
Verification of the SmartSheetConnect lead-capture backend.

The development shallowly embeds the server code:
* `shared/schema.ts` — the Zod lead-submission schema (`leadSubmissionSchema`),
  including the exact order of checks and transforms on each field;
* `server/routes.ts` — the `POST /api/submit-lead` handler (honeypot check,
  validation, storage call, error handling with production redaction);
* `server/services/storage.ts` — `MemStorage.submitLead` (append, then
  `Promise.allSettled` over the two notification attempts);
* `server/services/googleSheets.ts` — `createOrGetSpreadsheet`,
  `findExistingSpreadsheet`, `appendLeadToSheet` and the module-level
  `cachedSpreadsheetId` cache.

Remote behaviour (token refresh, spreadsheet get/create, Drive search,
append) is modelled by explicit environment records supplying the outcome of
each remote call; each embedded function also emits the list of remote
operations it performed, so temporal claims are statements about these event
lists.  Strings are ASCII-modelled: the JavaScript `trim`, `toLowerCase`,
`\s` and the Zod e-mail pattern are embedded on that fragment, which covers
every character class the schema's patterns accept.
-/

namespace SmartSheetConnect

instance {ε α : Type} [DecidableEq ε] [DecidableEq α] :
    DecidableEq (Except ε α) := fun x y =>
  match x, y with
  | .ok a, .ok b =>
    if h : a = b then .isTrue (by rw [h]) else .isFalse (by simp [h])
  | .error a, .error b =>
    if h : a = b then .isTrue (by rw [h]) else .isFalse (by simp [h])
  | .ok _, .error _ => .isFalse (by simp)
  | .error _, .ok _ => .isFalse (by simp)

/-- JavaScript whitespace (`\s`, `String.prototype.trim`), ASCII fragment:
space, tab, LF, VT, FF, CR. -/
def isJsWhitespace (c : Char) : Bool :=
  c.toNat = 32 || c.toNat = 9 || c.toNat = 10 || c.toNat = 11 ||
  c.toNat = 12 || c.toNat = 13

/-- ASCII decimal digit, the `[0-9]` class. -/
def isDigitChar (c : Char) : Bool :=
  48 ≤ c.toNat && c.toNat ≤ 57

/-- ASCII letter, the `[A-Za-z]` class. -/
def isAlphaChar (c : Char) : Bool :=
  (65 ≤ c.toNat && c.toNat ≤ 90) || (97 ≤ c.toNat && c.toNat ≤ 122)

/-- ASCII letter or digit, the `[A-Za-z0-9]` class. -/
def isAlnumChar (c : Char) : Bool :=
  isAlphaChar c || isDigitChar c

/-- Drop leading JavaScript whitespace from a character list. -/
def trimLeftChars : List Char → List Char
  | [] => []
  | c :: cs => if isJsWhitespace c then trimLeftChars cs else c :: cs

/-- Both-ends trim on character lists, as performed by `String.prototype.trim`
(hence by Zod's `.trim()` transform). -/
def trimChars (l : List Char) : List Char :=
  ((trimLeftChars ((trimLeftChars l).reverse)).reverse)

/-- `String.prototype.trim` on the ASCII fragment. -/
def jsTrim (s : String) : String :=
  ⟨trimChars s.data⟩

/-- `String.prototype.toLowerCase` on one ASCII character: `A`–`Z` (65–90)
maps to `a`–`z` (97–122), everything else is unchanged. -/
def jsLowerChar (c : Char) : Char :=
  if 65 ≤ c.toNat ∧ c.toNat ≤ 90 then Char.ofNat (c.toNat + 32) else c

/-- `String.prototype.toLowerCase` on the ASCII fragment (Zod's
`.toLowerCase()` transform). -/
def jsToLower (s : String) : String :=
  ⟨s.data.map jsLowerChar⟩

/-- Split a character list at every occurrence of `sep`; the separators are
dropped and the (possibly empty) groups are returned in order. -/
def splitSep (sep : Char) : List Char → List (List Char)
  | [] => [[]]
  | c :: cs =>
    match splitSep sep cs with
    | [] => [[]]
    | g :: gs => if c = sep then [] :: g :: gs else (c :: g) :: gs

/-- True when the list has no two consecutive dots, the `(?!.*\.\.)`
lookahead of the Zod e-mail pattern. -/
def noDoubleDot : List Char → Bool
  | c :: d :: rest => !(c.toNat = 46 && d.toNat = 46) && noDoubleDot (d :: rest)
  | _ => true

/-- Character class of the e-mail local part body,
`[A-Z0-9_'+\-\.]` case-insensitively (apostrophe has code 39). -/
def emailLocalChar (c : Char) : Bool :=
  isAlnumChar c || c.toNat = 95 || c.toNat = 39 || c.toNat = 43 ||
  c.toNat = 45 || c.toNat = 46

/-- Character class of the final e-mail local-part character,
`[A-Z0-9_+-]` case-insensitively (no dot, no apostrophe). -/
def emailLocalEndChar (c : Char) : Bool :=
  isAlnumChar c || c.toNat = 95 || c.toNat = 43 || c.toNat = 45

/-- The local part of the e-mail pattern: `([A-Z0-9_'+\-\.]*)[A-Z0-9_+-]`,
i.e. nonempty, body characters in the local class, last character in the
restricted class. -/
def emailLocalOk (l : List Char) : Bool :=
  match l.reverse with
  | [] => false
  | last :: revBody => emailLocalEndChar last && revBody.all emailLocalChar

/-- One internal domain label: `[A-Z0-9][A-Z0-9\-]*` case-insensitively. -/
def emailLabelOk (l : List Char) : Bool :=
  match l with
  | [] => false
  | c :: cs => isAlnumChar c && cs.all (fun x => isAlnumChar x || x.toNat = 45)

/-- The domain of the e-mail pattern, `([A-Z0-9][A-Z0-9\-]*\.)+[A-Z]{2,}`:
at least one label, then an alphabetic top-level domain of length ≥ 2. -/
def emailDomainOk (d : List Char) : Bool :=
  match (splitSep (Char.ofNat 46) d).reverse with
  | [] => false
  | tld :: revLabels =>
    !revLabels.isEmpty && 2 ≤ tld.length && tld.all isAlphaChar &&
    revLabels.all emailLabelOk

/-- Zod's e-mail validation pattern (zod ≥ 3.22),
`/^(?!\.)(?!.*\.\.)([A-Z0-9_'+\-\.]*)[A-Z0-9_+-]@([A-Z0-9][A-Z0-9\-]*\.)+[A-Z]{2,}$/i`,
embedded structurally: the string must not start with a dot, contain no
double dot, and decompose at its unique `@` (code 64) into a valid local
part and a valid domain. -/
def zodEmailCheck (s : String) : Bool :=
  let cs := s.data
  (match cs with | c :: _ => !(c.toNat = 46) | [] => true) &&
  noDoubleDot cs &&
  (match splitSep (Char.ofNat 64) cs with
   | [localPart, domain] => emailLocalOk localPart && emailDomainOk domain
   | _ => false)

/-- Separator class `[-\s.]` of the phone pattern. -/
def isPhoneSep (c : Char) : Bool :=
  c.toNat = 45 || c.toNat = 46 || isJsWhitespace c

/-- Consume one optional character with code `n`, the `[x]?` pieces of the
phone pattern. -/
def consumeOpt (n : Nat) (l : List Char) : List Char :=
  match l with
  | c :: r => if c.toNat = n then r else l
  | [] => l

/-- Consume one optional phone separator, the `[-\s.]?` pieces. -/
def consumeOptSep (l : List Char) : List Char :=
  match l with
  | c :: r => if isPhoneSep c then r else l
  | [] => l

/-- Consume exactly three digits (`[0-9]{3}`), or fail. -/
def takeThreeDigits (l : List Char) : Option (List Char) :=
  match l with
  | a :: b :: c :: r =>
    if isDigitChar a && isDigitChar b && isDigitChar c then some r else none
  | _ => none

/-- The phone pattern of `shared/schema.ts`,
`/^[\+]?[(]?[0-9]{3}[)]?[-\s\.]?[0-9]{3}[-\s\.]?[0-9]{4,6}$/`, matched
left-to-right; each optional class is disjoint from `[0-9]`, so consuming a
present optional character is the unique way to match. -/
def phonePatternMatch (l0 : List Char) : Bool :=
  let l1 := consumeOpt 43 l0       -- [\+]?
  let l2 := consumeOpt 40 l1       -- [(]?
  match takeThreeDigits l2 with    -- [0-9]{3}
  | none => false
  | some l3 =>
    let l4 := consumeOpt 41 l3     -- [)]?
    let l5 := consumeOptSep l4     -- [-\s\.]?
    match takeThreeDigits l5 with  -- [0-9]{3}
    | none => false
    | some l6 =>
      let l7 := consumeOptSep l6   -- [-\s\.]?
      l7.all isDigitChar && 4 ≤ l7.length && l7.length ≤ 6  -- [0-9]{4,6}$

/-- The `.refine` predicate on the optional phone field:
`!val || phoneRegex.test(val.replace(/\s/g, ""))` — the empty string is
falsy and passes, otherwise the pattern is tested with all whitespace
removed. -/
def phoneRefine (s : String) : Bool :=
  s.length = 0 || phonePatternMatch (s.data.filter (fun c => !isJsWhitespace c))

/-! ## The lead-submission schema (`shared/schema.ts`, `leadSubmissionSchema`)

Each field is a Zod string schema whose checks and transforms run in the
written order, collecting the message of every failing check; a missing
field fails with Zod's `invalid_type` message `Required`.  Transforms
(`.trim()`, `.toLowerCase()`) run after the checks written before them, so
the length and e-mail checks see the raw input. -/

/-- A validated lead, the output type of `leadSubmissionSchema.parse`. -/
structure Lead where
  name : String
  email : String
  phone : Option String
  message : String
deriving DecidableEq

/-- The raw JSON fields relevant to the schema; a `none` field is absent
from the request body. -/
structure RawLead where
  name : Option String
  email : Option String
  phone : Option String
  message : Option String
deriving DecidableEq

/-- Issue messages of the `name` field checks, in check order:
`.min(1, "Name is required").max(100, "Name is too long")`, evaluated on
the raw (untrimmed) input. -/
def nameIssues (s : String) : List String :=
  (if s.length < 1 then ["Name is required"] else []) ++
  (if 100 < s.length then ["Name is too long"] else [])

/-- Parse the `name` field: collect check issues, then apply `.trim()`. -/
def parseName : Option String → Except (List String) String
  | none => .error ["Required"]
  | some s =>
    match nameIssues s with
    | [] => .ok (jsTrim s)
    | es => .error es

/-- Issue messages of the `email` field checks, in check order:
`.email("Please enter a valid email address").max(255, "Email is too long")`,
evaluated on the raw input (before `.toLowerCase().trim()`). -/
def emailIssues (s : String) : List String :=
  (if zodEmailCheck s then [] else ["Please enter a valid email address"]) ++
  (if 255 < s.length then ["Email is too long"] else [])

/-- Parse the `email` field: collect check issues, then apply
`.toLowerCase().trim()` in that order. -/
def parseEmail : Option String → Except (List String) String
  | none => .error ["Required"]
  | some s =>
    match emailIssues s with
    | [] => .ok (jsTrim (jsToLower s))
    | es => .error es

/-- Parse the optional `phone` field: an absent phone passes; a present one
must satisfy the `.refine` predicate. -/
def parsePhone : Option String → Except (List String) (Option String)
  | none => .ok none
  | some s =>
    if phoneRefine s then .ok (some s)
    else .error ["Please enter a valid phone number"]

/-- Issue messages of the `message` field checks, in check order:
`.min(1, "Message is required").max(1000, "Message is too long")`. -/
def messageIssues (s : String) : List String :=
  (if s.length < 1 then ["Message is required"] else []) ++
  (if 1000 < s.length then ["Message is too long"] else [])

/-- Parse the `message` field: collect check issues, then apply `.trim()`. -/
def parseMessage : Option String → Except (List String) String
  | none => .error ["Required"]
  | some s =>
    match messageIssues s with
    | [] => .ok (jsTrim s)
    | es => .error es

/-- Issues contributed by one field to the aggregated `ZodError`. -/
def fieldIssues {α : Type} : Except (List String) α → List String
  | .error es => es
  | .ok _ => []

/-- `leadSubmissionSchema.parse`: parse the four fields in declaration
order (`name`, `email`, `phone`, `message`); succeed when all succeed,
otherwise aggregate every field's issues in that order. -/
def leadSubmissionSchemaParse (r : RawLead) : Except (List String) Lead :=
  match parseName r.name, parseEmail r.email,
        parsePhone r.phone, parseMessage r.message with
  | .ok n, .ok e, .ok p, .ok m => .ok ⟨n, e, p, m⟩
  | pn, pe, pp, pm =>
    .error (fieldIssues pn ++ fieldIssues pe ++ fieldIssues pp ++ fieldIssues pm)

/-! ## Spreadsheet provisioning (`server/services/googleSheets.ts`)

The remote Google backend is modelled by an environment record giving the
outcome of each remote call a single `createOrGetSpreadsheet` invocation
could make.  Every embedded function returns, besides its result, the list
of remote operations it performed, in order. -/

/-- Remote operations performed by the googleSheets module. -/
inductive RemoteOp
  /-- OAuth2 token refresh inside `getUncachableGoogleSheetClient` /
  `getAccessToken`. -/
  | tokenRefresh
  /-- `sheets.spreadsheets.get` verifying the `SPREADSHEET_ID` override. -/
  | spreadsheetGet
  /-- The Drive `files.list` title search inside `findExistingSpreadsheet`
  (including that function's own token acquisition). -/
  | titleSearch
  /-- `sheets.spreadsheets.create`. -/
  | create
  /-- The `values.update` writing the header row of a fresh spreadsheet. -/
  | headerWrite
  /-- The best-effort `saveSpreadsheetIdToEnv` persistence attempt (never
  throws). -/
  | persistId
deriving DecidableEq

/-- Outcomes of the remote calls one `createOrGetSpreadsheet` invocation
could make. -/
structure ProvisionEnv where
  /-- Result of `getAccessToken` for the sheets client: `.ok` with a token,
  or `.error` with the thrown message. -/
  tokenRes : Except String Unit
  /-- `process.env.SPREADSHEET_ID` (absent, or its string value). -/
  overrideId : Option String
  /-- Result of `sheets.spreadsheets.get` on the override id: `some` with
  the returned `spreadsheetId`, or `none` when the call throws. -/
  getRes : Option String
  /-- Result of `getAccessToken` inside `findExistingSpreadsheet`. -/
  searchTokenRes : Except String Unit
  /-- Result of the Drive `files.list` search: the returned file ids,
  ordered by `modifiedTime desc`, or the thrown message. -/
  driveFiles : Except String (List String)
  /-- Result of `sheets.spreadsheets.create`: `some` new id, or `none`
  when the call throws. -/
  createRes : Option String
  /-- Whether the header-row `values.update` succeeds. -/
  headerOk : Bool

/-- A JavaScript truthiness check on an optional environment variable: the
variable must be present and nonempty. -/
def envTruthy : Option String → Bool
  | some s => s ≠ ""
  | none => false

/-- The body of `findExistingSpreadsheet` before its catch-all: acquire a
token, run the Drive search, and take the first (most recently modified)
match; `none` inside `.ok` is the no-match case. -/
def findSpreadsheetInner (tok : Except String Unit)
    (files : Except String (List String)) : Except String (Option String) :=
  match tok with
  | .error e => .error e
  | .ok _ =>
    match files with
    | .error e => .error e
    | .ok fs => .ok fs.head?

/-- `findExistingSpreadsheet`: the whole body runs under a catch-all that
turns any thrown error into `null`, so the function returns the found id or
`null` and never raises. -/
def findExistingSpreadsheet (tok : Except String Unit)
    (files : Except String (List String)) : Option String :=
  match findSpreadsheetInner tok files with
  | .ok r => r
  | .error _ => none

/-- Priorities 2–3 of `createOrGetSpreadsheet` (reached on a cache miss
with no usable override): search by title, else create with a header row;
returns the result, the new cache contents, and the remote operations. -/
def searchOrCreate (env : ProvisionEnv) :
    Except String String × Option String × List RemoteOp :=
  match findExistingSpreadsheet env.searchTokenRes env.driveFiles with
  | some existingId => (.ok existingId, some existingId, [.titleSearch])
  | none =>
    match env.createRes with
    | none =>
      (.error "Failed to create spreadsheet", none, [.titleSearch, .create])
    | some newId =>
      if env.headerOk then
        (.ok newId, some newId,
          [.titleSearch, .create, .headerWrite, .persistId])
      else
        (.error "Failed to create spreadsheet", none,
          [.titleSearch, .create, .headerWrite])

/-- One call to `createOrGetSpreadsheet`, as a transition on the
module-level `cachedSpreadsheetId` cell: the sheets client is built first
(token refresh), then the cache is consulted, then the override, then
search-or-create.  Returns the result, the cache after the call, and the
remote operations performed, in order. -/
def createOrGetSpreadsheet (cache : Option String) (env : ProvisionEnv) :
    Except String String × Option String × List RemoteOp :=
  match env.tokenRes with
  | .error e => (.error e, cache, [.tokenRefresh])
  | .ok _ =>
    match cache with
    | some cachedId => (.ok cachedId, some cachedId, [.tokenRefresh])
    | none =>
      if envTruthy env.overrideId then
        match env.getRes with
        | some verifiedId =>
          (.ok verifiedId, some verifiedId, [.tokenRefresh, .spreadsheetGet])
        | none =>
          let (r, c, ops) := searchOrCreate env
          (r, c, .tokenRefresh :: .spreadsheetGet :: ops)
      else
        let (r, c, ops) := searchOrCreate env
        (r, c, .tokenRefresh :: ops)

/-- Run a sequence of `createOrGetSpreadsheet` calls from a starting cache,
collecting each call's result and operations, and the final cache. -/
def runProvisionCalls (cache : Option String) :
    List ProvisionEnv → List (Except String String × List RemoteOp) × Option String
  | [] => ([], cache)
  | env :: envs =>
    let (r, c, ops) := createOrGetSpreadsheet cache env
    let (rest, final) := runProvisionCalls c envs
    ((r, ops) :: rest, final)

/-! ## Append, submission and the HTTP handler
(`server/services/googleSheets.ts` `appendLeadToSheet`,
`server/services/storage.ts` `MemStorage.submitLead`,
`server/routes.ts` `POST /api/submit-lead`). -/

/-- The row `appendLeadToSheet` sends to `values.append` on range
`Leads!A:E`: `[timestamp, name, email, phone || '', message]`. -/
def leadRow (timestamp : String) (l : Lead) : List String :=
  [timestamp, l.name, l.email, l.phone.getD "", l.message]

/-- Outcome of the remote work inside `appendLeadToSheet`'s try block
(client acquisition, provisioning, and the `values.append` call): on
success the spreadsheet id and the `updates.updatedRows` field of the
append response (absent when the backend omits it); on failure the thrown
message. -/
def AppendEnv : Type := Except String (String × Option Nat)

/-- `appendLeadToSheet`: on success report the spreadsheet id and
`updatedRows || 0` as the row number; any error from the try block is
re-thrown as `Failed to append lead to sheet: <message>`. -/
def appendLeadToSheet (env : AppendEnv) : Except String (String × Nat) :=
  match env with
  | .ok (sid, updatedRows) => .ok (sid, updatedRows.getD 0)
  | .error m => .error ("Failed to append lead to sheet: " ++ m)

/-- Events in the execution order of `MemStorage.submitLead` and the route
handler; responding with a status code is itself an event, so temporal
claims are statements about these lists. -/
inductive Ev
  /-- The `appendLeadToSheet` call. -/
  | append
  /-- The `sendEmailNotification` attempt is started. -/
  | notifyEmail
  /-- The `sendSlackNotification` attempt is started. -/
  | notifySlack
  /-- The awaited `Promise.allSettled` over both attempts completes. -/
  | notifySettled
  /-- The HTTP response with the given status code is sent. -/
  | respond (status : Nat)
deriving DecidableEq

/-- Outcomes of the backends one `submitLead` call touches.  The two
notification outcomes are captured by `Promise.allSettled` and can never
propagate; they are carried here so that independence of the response from
them is a meaningful statement. -/
structure SubmitEnv where
  /-- Outcome of the append path (see `AppendEnv`). -/
  append : AppendEnv
  /-- Whether the email notification attempt succeeds. -/
  emailOk : Bool
  /-- Whether the Slack notification attempt succeeds. -/
  slackOk : Bool

/-- `MemStorage.submitLead`: append to the sheet; on success dispatch both
notification attempts and await their settlement (`Promise.allSettled`,
whose captured failures are discarded), then return the append result; on
failure re-throw as `Failed to submit lead: <message>` without attempting
notifications. -/
def submitLead (env : SubmitEnv) (_lead : Lead) :
    Except String (String × Nat) × List Ev :=
  match appendLeadToSheet env.append with
  | .error m => (.error ("Failed to submit lead: " ++ m), [.append])
  | .ok r => (.ok r, [.append, .notifyEmail, .notifySlack, .notifySettled])

/-- The full JSON body of a `POST /api/submit-lead` request, as far as the
handler reads it. -/
structure SubmissionRequest where
  name : Option String
  email : Option String
  phone : Option String
  message : Option String
  /-- The hidden `_honeypot` field. -/
  honeypot : Option String
deriving DecidableEq

/-- The handler's honeypot test, `req.body._honeypot && req.body._honeypot
!== ""`: present and non-empty. -/
def honeypotFilled (req : SubmissionRequest) : Bool :=
  match req.honeypot with
  | some s => s ≠ ""
  | none => false

/-- `const { _honeypot, ...submissionData } = req.body` — the honeypot
field is stripped before validation. -/
def stripHoneypot (req : SubmissionRequest) : RawLead :=
  ⟨req.name, req.email, req.phone, req.message⟩

/-- The JSON response body of the submit-lead endpoint
(`LeadSubmissionResponse`, with the HTTP status attached): `rowNumber` is
present only on a real success. -/
structure HandlerResponse where
  status : Nat
  success : Bool
  message : String
  rowNumber : Option Nat
deriving DecidableEq

/-- The success shape of the endpoint's 200 contract,
`{success: true, message: "Lead submitted successfully", rowNumber?}` —
what a submitter can observe short of the optional row number. -/
def isSuccessShaped (r : HandlerResponse) : Bool :=
  r.status == 200 && r.success && r.message == "Lead submitted successfully"

/-- The `POST /api/submit-lead` handler of `server/routes.ts` for one
request: honeypot short-circuit, validation, `storage.submitLead`, and the
catch block distinguishing `ZodError` (400) from other errors (500, with
the production-redacted message).  `prod` is `NODE_ENV === "production"`.
Returns the response, the event list in execution order, and the server
log lines (each modelled as the logged text with the logged error's message
appended). -/
def handleSubmitLead (prod : Bool) (env : SubmitEnv) (req : SubmissionRequest) :
    HandlerResponse × List Ev × List String :=
  if honeypotFilled req then
    (⟨200, true, "Lead submitted successfully", none⟩,
     [.respond 200],
     ["Potential spam detected: honeypot field filled"])
  else
    match leadSubmissionSchemaParse (stripHoneypot req) with
    | .error msgs =>
      (⟨400, false, "Validation error: " ++ String.intercalate ", " msgs, none⟩,
       [.respond 400],
       ["Error submitting lead: " ++ String.intercalate ", " msgs])
    | .ok lead =>
      match submitLead env lead with
      | (.ok (_, rowNumber), evs) =>
        (⟨200, true, "Lead submitted successfully", some rowNumber⟩,
         evs ++ [.respond 200],
         [])
      | (.error m, evs) =>
        (⟨500, false,
          (if prod then "Failed to submit lead. Please try again later." else m),
          none⟩,
         evs ++ [.respond 500],
         ["Error submitting lead: " ++ m])

/-! ## Small derived notions used by the statements. -/

/-- All remote operations of a sequence of provisioning calls, in order. -/
def runOps (results : List (Except String String × List RemoteOp)) :
    List RemoteOp :=
  (results.map Prod.snd).flatten

/-- A string made only of (JavaScript) whitespace characters. -/
def allWhitespace (s : String) : Bool :=
  s.data.all isJsWhitespace

/-- Re-submitting a validated lead as a raw request body (every field a
plain string, the phone carried over as-is). -/
def rawOfLead (v : Lead) : RawLead :=
  ⟨some v.name, some v.email, v.phone, some v.message⟩

/-! # Theorems

First shared helper lemmas, then one theorem per claim (with its witness or
counterexample). -/

/-- A cache hit: the call builds the sheets client and then returns the
cached id, leaving the cache unchanged, with the token refresh as its only
remote operation. -/
theorem createOrGet_cacheHit (id : String) (env : ProvisionEnv) :
    createOrGetSpreadsheet (some id) env =
      ((match env.tokenRes with
        | .ok _ => .ok id
        | .error e => .error e),
       some id, [.tokenRefresh]) := by
  cases h : env.tokenRes <;> simp [createOrGetSpreadsheet, h]

/-- The search-or-create tail populates the cache exactly on success. -/
theorem searchOrCreate_success_sets_cache (env : ProvisionEnv) (id : String)
    (h : (searchOrCreate env).1 = .ok id) :
    (searchOrCreate env).2.1 = some id := by
  unfold searchOrCreate at h ⊢
  cases hf : findExistingSpreadsheet env.searchTokenRes env.driveFiles <;>
    simp only [hf] at h ⊢ <;>
    [cases hcr : env.createRes; skip] <;>
    simp_all <;>
    cases hho : env.headerOk <;> simp_all

/-- A successful call on an empty cache populates the cache with the
returned id. -/
theorem createOrGet_success_sets_cache (env : ProvisionEnv) (id : String)
    (h : (createOrGetSpreadsheet none env).1 = .ok id) :
    (createOrGetSpreadsheet none env).2.1 = some id := by
  have hsc := searchOrCreate_success_sets_cache env id
  obtain ⟨tok, ov, get, stok, df, cr, ho⟩ := env
  unfold createOrGetSpreadsheet at h ⊢
  cases tok with
  | error e => simp_all
  | ok u =>
    by_cases hov : envTruthy ov
    · simp only [hov, if_true] at h ⊢
      cases get with
      | some rid => simp_all
      | none =>
        rcases hs : searchOrCreate ⟨.ok u, ov, none, stok, df, cr, ho⟩ with
          ⟨r, c, ops⟩
        simp_all
    · simp only [hov, if_false] at h ⊢
      rcases hs : searchOrCreate ⟨.ok u, ov, get, stok, df, cr, ho⟩ with
        ⟨r, c, ops⟩
      simp_all

/-- The search-or-create tail performs at most one title search and at most
one create. -/
theorem searchOrCreate_ops_bound (env : ProvisionEnv) :
    ((searchOrCreate env).2.2).count RemoteOp.titleSearch ≤ 1 ∧
    ((searchOrCreate env).2.2).count RemoteOp.create ≤ 1 := by
  unfold searchOrCreate
  cases hf : findExistingSpreadsheet env.searchTokenRes env.driveFiles with
  | some e => simp [List.count_cons]
  | none =>
    cases hcr : env.createRes with
    | none => simp [List.count_cons]
    | some nid => cases hho : env.headerOk <;> simp [List.count_cons]

/-- Any single call performs at most one title search and at most one
create. -/
theorem createOrGet_ops_bound (cache : Option String) (env : ProvisionEnv) :
    ((createOrGetSpreadsheet cache env).2.2).count RemoteOp.titleSearch ≤ 1 ∧
    ((createOrGetSpreadsheet cache env).2.2).count RemoteOp.create ≤ 1 := by
  have hsc := searchOrCreate_ops_bound env
  unfold createOrGetSpreadsheet
  cases htok : env.tokenRes with
  | error e => simp [List.count_cons]
  | ok u =>
    cases cache with
    | some id => simp [List.count_cons]
    | none =>
      by_cases hov : envTruthy env.overrideId
      · simp only [hov, if_true]
        cases hget : env.getRes with
        | some rid => simp [List.count_cons]
        | none =>
          rcases hs : searchOrCreate env with ⟨r, c, ops⟩
          rw [hs] at hsc
          simp [List.count_cons] at hsc ⊢
          omega
      · simp only [hov, if_false]
        rcases hs : searchOrCreate env with ⟨r, c, ops⟩
        rw [hs] at hsc
        simp [List.count_cons] at hsc ⊢
        omega

/-- Once the cache holds an id, a whole run of further calls returns that
id on every successful call, performs only token refreshes, and leaves the
cache untouched. -/
theorem runProvisionCalls_cached (id : String) (envs : List ProvisionEnv) :
    runProvisionCalls (some id) envs =
      (envs.map (fun env =>
        ((match env.tokenRes with
          | .ok _ => .ok id
          | .error e => .error e), [RemoteOp.tokenRefresh])),
       some id) := by
  induction envs with
  | nil => rfl
  | cons env envs ih =>
    simp [runProvisionCalls, createOrGet_cacheHit, ih]

/-- C7: `findExistingSpreadsheet` never raises — for every behaviour of its
token acquisition and of the Drive search backend it returns an optional
id; a token error, a search-backend error and an empty search result all
collapse to the not-found result `none`, and a hit returns the first
(most recently modified) listed file, so provisioning can always fall
through to creating a new spreadsheet. -/
theorem findExistingSpreadsheet_never_raises :
    (∀ e files, findExistingSpreadsheet (.error e) files = none) ∧
    (∀ tok e, findExistingSpreadsheet tok (.error e) = none) ∧
    (∀ tok, findExistingSpreadsheet tok (.ok []) = none) ∧
    (∀ fs, findExistingSpreadsheet (.ok ()) (.ok fs) = fs.head?) := by
  refine ⟨fun e files => ?_, fun tok e => ?_, fun tok => ?_, fun fs => rfl⟩
  · cases files <;> rfl
  · cases tok <;> rfl
  · cases tok <;> rfl

/-- C3 (counterexample): with the cache populated (`some "sheet-1"`) and a
healthy environment, the call still performs a remote operation — the
token refresh of `getUncachableGoogleSheetClient`, which the code runs
before the cache check — so the claim that a cache hit performs no remote
call at all (in particular no token refresh) is false. -/
theorem cacheHit_remote_call_counterexample :
    (createOrGetSpreadsheet (some "sheet-1")
        ⟨.ok (), none, none, .ok (), .ok [], none, true⟩).2.2 =
      [RemoteOp.tokenRefresh] ∧
    RemoteOp.tokenRefresh ∈
      (createOrGetSpreadsheet (some "sheet-1")
        ⟨.ok (), none, none, .ok (), .ok [], none, true⟩).2.2 :=
  ⟨rfl, by decide⟩

/-- C3 (amended): whenever the cache entry exists, `createOrGetSpreadsheet`
returns the cached id unchanged and performs no spreadsheet get, no title
search and no create — but it does first perform the token refresh of
acquiring the sheets client (so an auth failure still raises even on a
cache hit), and the cache is left untouched. -/
theorem cacheHit_returns_cached_id (id : String) (env : ProvisionEnv) :
    createOrGetSpreadsheet (some id) env =
      ((match env.tokenRes with
        | .ok _ => .ok id
        | .error e => .error e),
       some id, [.tokenRefresh]) :=
  createOrGet_cacheHit id env

/-- C5: override precedence and fallback.  When `SPREADSHEET_ID` is
configured (truthy) and its remote verification succeeds, the call returns
the verified id after only a token refresh and a spreadsheet get — the
title search is never invoked.  When the verification fails, the call does
not raise at that step: it produces exactly the result and cache of the
same call with no override configured, its operation list being the
no-override one with the failed spreadsheet get inserted. -/
theorem override_precedence_and_fallback :
    (∀ env rid, env.tokenRes = .ok () → envTruthy env.overrideId = true →
      env.getRes = some rid →
      createOrGetSpreadsheet none env =
        (.ok rid, some rid, [.tokenRefresh, .spreadsheetGet]) ∧
      RemoteOp.titleSearch ∉ (createOrGetSpreadsheet none env).2.2) ∧
    (∀ env, env.tokenRes = .ok () → envTruthy env.overrideId = true →
      env.getRes = none →
      (createOrGetSpreadsheet none env).1 =
        (createOrGetSpreadsheet none { env with overrideId := none }).1 ∧
      (createOrGetSpreadsheet none env).2.1 =
        (createOrGetSpreadsheet none { env with overrideId := none }).2.1 ∧
      ∃ ops,
        (createOrGetSpreadsheet none { env with overrideId := none }).2.2 =
          RemoteOp.tokenRefresh :: ops ∧
        (createOrGetSpreadsheet none env).2.2 =
          RemoteOp.tokenRefresh :: RemoteOp.spreadsheetGet :: ops) := by
  constructor
  · intro env rid htok hov hget
    refine ⟨?_, ?_⟩
    · simp [createOrGetSpreadsheet, htok, hov, hget]
    · simp [createOrGetSpreadsheet, htok, hov, hget]
  · intro env htok hov hget
    obtain ⟨tok, ov, get, stok, df, cr, ho⟩ := env
    simp only at htok hov hget
    subst htok
    subst hget
    rcases hs : searchOrCreate ⟨.ok (), ov, none, stok, df, cr, ho⟩ with
      ⟨r, c, ops⟩
    have hso : searchOrCreate ⟨.ok (), none, none, stok, df, cr, ho⟩ =
        (r, c, ops) := hs
    have hnov : envTruthy (none : Option String) = false := rfl
    refine ⟨?_, ?_, ops, ?_, ?_⟩ <;>
      simp [createOrGetSpreadsheet, hov, hnov, hs, hso]

/-- C5 (witness): a call whose override `OVR-1` verifies returns it with no
title search, and a call whose override `BAD-1` fails verification behaves
exactly like the override-free call (here both find `FOUND-7` by title). -/
theorem override_precedence_and_fallback_witness :
    envTruthy (some "OVR-1") = true ∧
    (createOrGetSpreadsheet none
        ⟨.ok (), some "OVR-1", some "OVR-1", .ok (), .ok [], none, true⟩ =
      (.ok "OVR-1", some "OVR-1", [.tokenRefresh, .spreadsheetGet]) ∧
     RemoteOp.titleSearch ∉
      (createOrGetSpreadsheet none
        ⟨.ok (), some "OVR-1", some "OVR-1", .ok (), .ok [], none, true⟩).2.2) ∧
    ((createOrGetSpreadsheet none
        ⟨.ok (), some "BAD-1", none, .ok (), .ok ["FOUND-7"], none, true⟩).1 =
      (createOrGetSpreadsheet none
        ⟨.ok (), none, none, .ok (), .ok ["FOUND-7"], none, true⟩).1 ∧
     (createOrGetSpreadsheet none
        ⟨.ok (), some "BAD-1", none, .ok (), .ok ["FOUND-7"], none, true⟩).2.1 =
      (createOrGetSpreadsheet none
        ⟨.ok (), none, none, .ok (), .ok ["FOUND-7"], none, true⟩).2.1 ∧
     ∃ ops,
       (createOrGetSpreadsheet none
          ⟨.ok (), none, none, .ok (), .ok ["FOUND-7"], none, true⟩).2.2 =
         RemoteOp.tokenRefresh :: ops ∧
       (createOrGetSpreadsheet none
          ⟨.ok (), some "BAD-1", none, .ok (), .ok ["FOUND-7"], none, true⟩).2.2 =
         RemoteOp.tokenRefresh :: RemoteOp.spreadsheetGet :: ops) :=
  ⟨by decide,
   override_precedence_and_fallback.1
     ⟨.ok (), some "OVR-1", some "OVR-1", .ok (), .ok [], none, true⟩
     "OVR-1" rfl (by decide) rfl,
   override_precedence_and_fallback.2
     ⟨.ok (), some "BAD-1", none, .ok (), .ok ["FOUND-7"], none, true⟩
     rfl (by decide) rfl⟩

/-- C1: provisioning determinism.  If the first `createOrGetSpreadsheet`
call of a process resolves to `id`, then across the whole run every later
call that returns an id returns the same `id`, at most one title search
and at most one create are performed over all `N` calls, the cache ends
(and stays) at `some id`, and a populated cache is never changed by any
call. -/
theorem provisioning_determinism (env0 : ProvisionEnv)
    (envs : List ProvisionEnv) (id : String)
    (h : (createOrGetSpreadsheet none env0).1 = .ok id) :
    (∀ p ∈ (runProvisionCalls none (env0 :: envs)).1,
       ∀ id', p.1 = .ok id' → id' = id) ∧
    (runOps (runProvisionCalls none (env0 :: envs)).1).count
        RemoteOp.titleSearch ≤ 1 ∧
    (runOps (runProvisionCalls none (env0 :: envs)).1).count
        RemoteOp.create ≤ 1 ∧
    (runProvisionCalls none (env0 :: envs)).2 = some id ∧
    (∀ c env', (createOrGetSpreadsheet (some c) env').2.1 = some c) := by
  have hcache := createOrGet_success_sets_cache env0 id h
  have hbound := createOrGet_ops_bound none env0
  rcases h0 : createOrGetSpreadsheet none env0 with ⟨r0, c0, ops0⟩
  rw [h0] at h hcache hbound
  simp at h hcache hbound
  subst hcache
  have hrun : runProvisionCalls none (env0 :: envs) =
      ((r0, ops0) :: (runProvisionCalls (some id) envs).1,
       (runProvisionCalls (some id) envs).2) := by
    simp [runProvisionCalls, h0]
  rw [runProvisionCalls_cached] at hrun
  have hzero : ∀ t, t ≠ RemoteOp.tokenRefresh →
      (runOps (envs.map fun env =>
        ((match env.tokenRes with
          | .ok _ => Except.ok id
          | .error e => Except.error e),
         [RemoteOp.tokenRefresh]))).count t = 0 := by
    intro t ht
    rw [List.count_eq_zero]
    intro hmem
    unfold runOps at hmem
    rw [List.map_map] at hmem
    obtain ⟨l, hl, htl⟩ := List.mem_flatten.mp hmem
    obtain ⟨env', _, rfl⟩ := List.mem_map.mp hl
    simp at htl
    exact ht htl
  refine ⟨?_, ?_, ?_, ?_, fun c env' => by rw [createOrGet_cacheHit]⟩
  · intro p hp id' hp1
    rw [hrun] at hp
    rcases List.mem_cons.mp hp with rfl | hp
    · exact (Except.ok.inj (h.symm.trans hp1)).symm
    · obtain ⟨env', _, rfl⟩ := List.mem_map.mp hp
      cases he : env'.tokenRes with
      | ok u =>
        rw [he] at hp1
        exact (Except.ok.inj hp1).symm
      | error e =>
        rw [he] at hp1
        exact absurd hp1 (by simp)
  · rw [hrun]
    have hsplit : runOps ((r0, ops0) :: (envs.map fun env =>
        ((match env.tokenRes with
          | .ok _ => Except.ok id
          | .error e => Except.error e),
         [RemoteOp.tokenRefresh]))) =
        ops0 ++ runOps (envs.map fun env =>
          ((match env.tokenRes with
            | .ok _ => Except.ok id
            | .error e => Except.error e),
           [RemoteOp.tokenRefresh])) := rfl
    rw [hsplit, List.count_append, hzero RemoteOp.titleSearch (by decide)]
    omega
  · rw [hrun]
    have hsplit : runOps ((r0, ops0) :: (envs.map fun env =>
        ((match env.tokenRes with
          | .ok _ => Except.ok id
          | .error e => Except.error e),
         [RemoteOp.tokenRefresh]))) =
        ops0 ++ runOps (envs.map fun env =>
          ((match env.tokenRes with
            | .ok _ => Except.ok id
            | .error e => Except.error e),
           [RemoteOp.tokenRefresh])) := rfl
    rw [hsplit, List.count_append, hzero RemoteOp.create (by decide)]
    omega
  · rw [hrun]

/-- C1 (witness): a first call that creates `NEW-1` (empty search result,
successful create and header write), followed by one further call: every
returned id is `NEW-1`, at most one search and one create happen, and the
cache ends at `some "NEW-1"`. -/
theorem provisioning_determinism_witness :
    (createOrGetSpreadsheet none
        ⟨.ok (), none, none, .ok (), .ok [], some "NEW-1", true⟩).1 =
      .ok "NEW-1" ∧
    ((∀ p ∈ (runProvisionCalls none
        [⟨.ok (), none, none, .ok (), .ok [], some "NEW-1", true⟩,
         ⟨.ok (), none, none, .ok (), .ok [], none, true⟩]).1,
       ∀ id', p.1 = .ok id' → id' = "NEW-1") ∧
     (runOps (runProvisionCalls none
        [⟨.ok (), none, none, .ok (), .ok [], some "NEW-1", true⟩,
         ⟨.ok (), none, none, .ok (), .ok [], none, true⟩]).1).count
        RemoteOp.titleSearch ≤ 1 ∧
     (runOps (runProvisionCalls none
        [⟨.ok (), none, none, .ok (), .ok [], some "NEW-1", true⟩,
         ⟨.ok (), none, none, .ok (), .ok [], none, true⟩]).1).count
        RemoteOp.create ≤ 1 ∧
     (runProvisionCalls none
        [⟨.ok (), none, none, .ok (), .ok [], some "NEW-1", true⟩,
         ⟨.ok (), none, none, .ok (), .ok [], none, true⟩]).2 =
       some "NEW-1" ∧
     (∀ c env', (createOrGetSpreadsheet (some c) env').2.1 = some c)) :=
  ⟨by decide,
   provisioning_determinism
     ⟨.ok (), none, none, .ok (), .ok [], some "NEW-1", true⟩
     [⟨.ok (), none, none, .ok (), .ok [], none, true⟩]
     "NEW-1" (by decide)⟩

/-- C2: the honeypot short-circuit.  For every request whose `_honeypot`
field is present and non-empty, the handler performs no append and starts
no notification attempt, and responds 200 with the success-shaped body
`{success: true, message: "Lead submitted successfully"}` (no row number,
matching the endpoint's success contract in which `rowNumber` is
optional). -/
theorem honeypot_short_circuit (prod : Bool) (env : SubmitEnv)
    (req : SubmissionRequest) (h : honeypotFilled req = true) :
    handleSubmitLead prod env req =
      (⟨200, true, "Lead submitted successfully", none⟩,
       [.respond 200], ["Potential spam detected: honeypot field filled"]) ∧
    isSuccessShaped (handleSubmitLead prod env req).1 = true ∧
    Ev.append ∉ (handleSubmitLead prod env req).2.1 ∧
    Ev.notifyEmail ∉ (handleSubmitLead prod env req).2.1 ∧
    Ev.notifySlack ∉ (handleSubmitLead prod env req).2.1 := by
  have he : handleSubmitLead prod env req =
      (⟨200, true, "Lead submitted successfully", none⟩,
       [.respond 200], ["Potential spam detected: honeypot field filled"]) := by
    simp [handleSubmitLead, h]
  refine ⟨he, ?_, ?_, ?_, ?_⟩ <;> rw [he] <;> decide

/-- C2 (witness): the spam request of the test suite (honeypot `filled`)
is short-circuited even with a healthy backend environment. -/
theorem honeypot_short_circuit_witness :
    honeypotFilled
      ⟨some "Spam Bot", some "spam@example.com", none,
       some "Spam message", some "filled"⟩ = true ∧
    (handleSubmitLead false ⟨.ok ("sheet-1", some 2), true, true⟩
        ⟨some "Spam Bot", some "spam@example.com", none,
         some "Spam message", some "filled"⟩ =
      (⟨200, true, "Lead submitted successfully", none⟩,
       [.respond 200], ["Potential spam detected: honeypot field filled"]) ∧
     isSuccessShaped (handleSubmitLead false ⟨.ok ("sheet-1", some 2), true, true⟩
        ⟨some "Spam Bot", some "spam@example.com", none,
         some "Spam message", some "filled"⟩).1 = true ∧
     Ev.append ∉ (handleSubmitLead false ⟨.ok ("sheet-1", some 2), true, true⟩
        ⟨some "Spam Bot", some "spam@example.com", none,
         some "Spam message", some "filled"⟩).2.1 ∧
     Ev.notifyEmail ∉ (handleSubmitLead false ⟨.ok ("sheet-1", some 2), true, true⟩
        ⟨some "Spam Bot", some "spam@example.com", none,
         some "Spam message", some "filled"⟩).2.1 ∧
     Ev.notifySlack ∉ (handleSubmitLead false ⟨.ok ("sheet-1", some 2), true, true⟩
        ⟨some "Spam Bot", some "spam@example.com", none,
         some "Spam message", some "filled"⟩).2.1) :=
  ⟨by decide,
   honeypot_short_circuit false ⟨.ok ("sheet-1", some 2), true, true⟩
     ⟨some "Spam Bot", some "spam@example.com", none,
      some "Spam message", some "filled"⟩ (by decide)⟩

/-- C6: validation rejection.  For every request with an empty or absent
honeypot that fails the schema, the handler responds 400 with the message
`Validation error: ` followed by all field issue messages joined by
`, `, and neither the append nor any notification attempt is reached. -/
theorem validation_rejected (prod : Bool) (env : SubmitEnv)
    (req : SubmissionRequest) (msgs : List String)
    (hhp : honeypotFilled req = false)
    (hv : leadSubmissionSchemaParse (stripHoneypot req) = .error msgs) :
    handleSubmitLead prod env req =
      (⟨400, false, "Validation error: " ++ String.intercalate ", " msgs, none⟩,
       [.respond 400],
       ["Error submitting lead: " ++ String.intercalate ", " msgs]) ∧
    Ev.append ∉ (handleSubmitLead prod env req).2.1 ∧
    Ev.notifyEmail ∉ (handleSubmitLead prod env req).2.1 ∧
    Ev.notifySlack ∉ (handleSubmitLead prod env req).2.1 := by
  have he : handleSubmitLead prod env req =
      (⟨400, false, "Validation error: " ++ String.intercalate ", " msgs, none⟩,
       [.respond 400],
       ["Error submitting lead: " ++ String.intercalate ", " msgs]) := by
    simp [handleSubmitLead, hhp, hv]
  refine ⟨he, ?_, ?_, ?_⟩ <;> rw [he] <;> simp

/-- C6 (witness): an empty name, a malformed email and an empty message
produce the three corresponding issue messages, joined in schema order. -/
theorem validation_rejected_witness :
    honeypotFilled ⟨some "", some "notanemail", none, some "", none⟩ = false ∧
    leadSubmissionSchemaParse
      (stripHoneypot ⟨some "", some "notanemail", none, some "", none⟩) =
      .error ["Name is required", "Please enter a valid email address",
              "Message is required"] ∧
    (handleSubmitLead false ⟨.ok ("sheet-1", some 2), true, true⟩
        ⟨some "", some "notanemail", none, some "", none⟩ =
      (⟨400, false,
        "Validation error: Name is required, Please enter a valid email address, Message is required",
        none⟩,
       [.respond 400],
       ["Error submitting lead: Name is required, Please enter a valid email address, Message is required"]) ∧
     Ev.append ∉ (handleSubmitLead false ⟨.ok ("sheet-1", some 2), true, true⟩
        ⟨some "", some "notanemail", none, some "", none⟩).2.1 ∧
     Ev.notifyEmail ∉ (handleSubmitLead false ⟨.ok ("sheet-1", some 2), true, true⟩
        ⟨some "", some "notanemail", none, some "", none⟩).2.1 ∧
     Ev.notifySlack ∉ (handleSubmitLead false ⟨.ok ("sheet-1", some 2), true, true⟩
        ⟨some "", some "notanemail", none, some "", none⟩).2.1) :=
  ⟨by decide, by decide,
   validation_rejected false ⟨.ok ("sheet-1", some 2), true, true⟩
     ⟨some "", some "notanemail", none, some "", none⟩
     ["Name is required", "Please enter a valid email address",
      "Message is required"]
     (by decide) (by decide)⟩

/-- C8: production error redaction.  In production, for every append-path
failure the 500 response body is the fixed generic message — identical for
any two backend error texts, so it carries no information about them — and
any backend message longer than the generic one can never appear verbatim
in the body; the full wrapped backend message does appear in the server
log. -/
theorem production_error_redaction (req : SubmissionRequest) (lead : Lead)
    (m1 m2 : String) (e1 s1 e2 s2 : Bool)
    (hhp : honeypotFilled req = false)
    (hv : leadSubmissionSchemaParse (stripHoneypot req) = .ok lead) :
    (handleSubmitLead true ⟨.error m1, e1, s1⟩ req).1 =
      ⟨500, false, "Failed to submit lead. Please try again later.", none⟩ ∧
    (handleSubmitLead true ⟨.error m1, e1, s1⟩ req).1 =
      (handleSubmitLead true ⟨.error m2, e2, s2⟩ req).1 ∧
    (∃ p, (handleSubmitLead true ⟨.error m1, e1, s1⟩ req).2.2 = [p ++ m1]) ∧
    ((handleSubmitLead true ⟨.error m1, e1, s1⟩ req).1.message.length <
        m1.length →
      ¬ ∃ p q, (handleSubmitLead true ⟨.error m1, e1, s1⟩ req).1.message =
        p ++ m1 ++ q) := by
  have he : ∀ m : String, ∀ e s : Bool,
      handleSubmitLead true ⟨.error m, e, s⟩ req =
      (⟨500, false, "Failed to submit lead. Please try again later.", none⟩,
       [.append, .respond 500],
       ["Error submitting lead: " ++ ("Failed to submit lead: " ++
          ("Failed to append lead to sheet: " ++ m))]) := by
    intro m e s
    simp [handleSubmitLead, hhp, hv, submitLead, appendLeadToSheet]
  refine ⟨?_, ?_,
    ⟨"Error submitting lead: Failed to submit lead: Failed to append lead to sheet: ",
     ?_⟩, ?_⟩
  · rw [he m1 e1 s1]
  · rw [he m1 e1 s1, he m2 e2 s2]
  · rw [he m1 e1 s1]
    rfl
  · rw [he m1 e1 s1]
    rintro hlen ⟨p, q, hpq⟩
    have hl := congrArg String.length hpq
    simp [String.length_append] at hl
    simp at hlen
    omega

/-- C8 (witness): a valid lead with a distinctive 60-character backend
failure: the production body is generic, independent of the text, the
text appears in the log, and it cannot occur inside the 46-character
generic body. -/
theorem production_error_redaction_witness :
    honeypotFilled
      ⟨some "John Doe", some "john@example.com", none, some "Hi", none⟩ =
      false ∧
    leadSubmissionSchemaParse
      (stripHoneypot
        ⟨some "John Doe", some "john@example.com", none, some "Hi", none⟩) =
      .ok ⟨"John Doe", "john@example.com", none, "Hi"⟩ ∧
    ((handleSubmitLead true
        ⟨.error "QUOTA_EXCEEDED: the backend rejected this append call 0042", false, false⟩
        ⟨some "John Doe", some "john@example.com", none, some "Hi", none⟩).1 =
      ⟨500, false, "Failed to submit lead. Please try again later.", none⟩ ∧
     (handleSubmitLead true
        ⟨.error "QUOTA_EXCEEDED: the backend rejected this append call 0042", false, false⟩
        ⟨some "John Doe", some "john@example.com", none, some "Hi", none⟩).1 =
      (handleSubmitLead true ⟨.error "a different failure", true, true⟩
        ⟨some "John Doe", some "john@example.com", none, some "Hi", none⟩).1 ∧
     (∃ p, (handleSubmitLead true
        ⟨.error "QUOTA_EXCEEDED: the backend rejected this append call 0042", false, false⟩
        ⟨some "John Doe", some "john@example.com", none, some "Hi", none⟩).2.2 =
       [p ++ "QUOTA_EXCEEDED: the backend rejected this append call 0042"]) ∧
     ((handleSubmitLead true
        ⟨.error "QUOTA_EXCEEDED: the backend rejected this append call 0042", false, false⟩
        ⟨some "John Doe", some "john@example.com", none, some "Hi", none⟩).1.message.length <
        "QUOTA_EXCEEDED: the backend rejected this append call 0042".length →
      ¬ ∃ p q, (handleSubmitLead true
        ⟨.error "QUOTA_EXCEEDED: the backend rejected this append call 0042", false, false⟩
        ⟨some "John Doe", some "john@example.com", none, some "Hi", none⟩).1.message =
        p ++ "QUOTA_EXCEEDED: the backend rejected this append call 0042" ++ q)) :=
  ⟨by decide, by decide,
   production_error_redaction
     ⟨some "John Doe", some "john@example.com", none, some "Hi", none⟩
     ⟨"John Doe", "john@example.com", none, "Hi"⟩
     "QUOTA_EXCEEDED: the backend rejected this append call 0042"
     "a different failure" false false true true (by decide) (by decide)⟩

/-- C4 (counterexample): a concrete successful submission whose event
trace is append, both notification starts, the awaited settlement of
`Promise.allSettled`, and only then the 200 response — the success
response does occur after notification completion is awaited
(`MemStorage.submitLead` awaits `Promise.allSettled` before returning and
the route awaits `submitLead` before responding), so the claim is false. -/
theorem response_waits_for_notifications_counterexample :
    (handleSubmitLead false ⟨.ok ("sheet-1", some 2), true, true⟩
        ⟨some "John Doe", some "john@example.com", none, some "Hi", none⟩).2.1 =
      [.append, .notifyEmail, .notifySlack, .notifySettled, .respond 200] ∧
    ∃ i j, i < j ∧
      (handleSubmitLead false ⟨.ok ("sheet-1", some 2), true, true⟩
        ⟨some "John Doe", some "john@example.com", none, some "Hi", none⟩).2.1.get? i =
        some Ev.notifySettled ∧
      (handleSubmitLead false ⟨.ok ("sheet-1", some 2), true, true⟩
        ⟨some "John Doe", some "john@example.com", none, some "Hi", none⟩).2.1.get? j =
        some (Ev.respond 200) :=
  ⟨by decide, 3, 4, by decide, by decide, by decide⟩

/-- C4 (amended): for every successful submission, the 200 response event
follows the settlement of both notification attempts in the execution
order, but the response itself is determined by the append result alone —
the right-hand side below does not mention the notification outcomes `e`
and `s`, and the captured notification failures never alter the response. -/
theorem response_after_notifications_settle (prod : Bool)
    (sid : String) (rows : Option Nat) (e s : Bool)
    (req : SubmissionRequest) (lead : Lead)
    (hhp : honeypotFilled req = false)
    (hv : leadSubmissionSchemaParse (stripHoneypot req) = .ok lead) :
    handleSubmitLead prod ⟨.ok (sid, rows), e, s⟩ req =
      (⟨200, true, "Lead submitted successfully", some (rows.getD 0)⟩,
       [.append, .notifyEmail, .notifySlack, .notifySettled, .respond 200],
       []) := by
  simp [handleSubmitLead, hhp, hv, submitLead, appendLeadToSheet]

/-- C4 (amended, witness): a concrete successful submission, with both
notification attempts failing, still yields the plain 200 response with
the append row count, after the settlement event. -/
theorem response_after_notifications_settle_witness :
    honeypotFilled
      ⟨some "Jane Smith", some "jane@example.com", none,
       some "Please contact me", none⟩ = false ∧
    leadSubmissionSchemaParse
      (stripHoneypot
        ⟨some "Jane Smith", some "jane@example.com", none,
         some "Please contact me", none⟩) =
      .ok ⟨"Jane Smith", "jane@example.com", none, "Please contact me"⟩ ∧
    handleSubmitLead true ⟨.ok ("sheet-9", some 7), false, false⟩
      ⟨some "Jane Smith", some "jane@example.com", none,
       some "Please contact me", none⟩ =
      (⟨200, true, "Lead submitted successfully", some 7⟩,
       [.append, .notifyEmail, .notifySlack, .notifySettled, .respond 200],
       []) :=
  ⟨by decide, by decide,
   response_after_notifications_settle true "sheet-9" (some 7) false false
     ⟨some "Jane Smith", some "jane@example.com", none,
      some "Please contact me", none⟩
     ⟨"Jane Smith", "jane@example.com", none, "Please contact me"⟩
     (by decide) (by decide)⟩

/-! ## String lemmas for the schema claims (C9, C10). -/

theorem char_eq_of_toNat_eq (c d : Char) (h : c.toNat = d.toNat) : c = d :=
  Char.ofNat_toNat c ▸ Char.ofNat_toNat d ▸ congrArg Char.ofNat h

theorem trimLeftChars_eq_self (l : List Char)
    (h : ∀ c ∈ l, isJsWhitespace c = false) : trimLeftChars l = l := by
  cases l with
  | nil => rfl
  | cons c cs => simp [trimLeftChars, h c (List.mem_cons_self c cs)]

theorem trimChars_eq_self (l : List Char)
    (h : ∀ c ∈ l, isJsWhitespace c = false) : trimChars l = l := by
  unfold trimChars
  rw [trimLeftChars_eq_self l h,
    trimLeftChars_eq_self l.reverse (fun c hc => h c (List.mem_reverse.mp hc)),
    List.reverse_reverse]

theorem trimLeftChars_suffix (l : List Char) :
    ∃ t, l = t ++ trimLeftChars l := by
  induction l with
  | nil => exact ⟨[], rfl⟩
  | cons c cs ih =>
    cases h : isJsWhitespace c with
    | true =>
      obtain ⟨t, ht⟩ := ih
      refine ⟨c :: t, ?_⟩
      simp [trimLeftChars, h]
      exact ht
    | false => exact ⟨[], by simp [trimLeftChars, h]⟩

theorem trimLeftChars_head? (l : List Char) (c : Char)
    (h : (trimLeftChars l).head? = some c) : isJsWhitespace c = false := by
  induction l with
  | nil => simp [trimLeftChars] at h
  | cons d ds ih =>
    cases hd : isJsWhitespace d with
    | true =>
      rw [trimLeftChars, if_pos hd] at h
      exact ih h
    | false =>
      rw [trimLeftChars, if_neg (by simp [hd])] at h
      simp at h
      rw [← h]
      exact hd

theorem trimLeftChars_idem (l : List Char) :
    trimLeftChars (trimLeftChars l) = trimLeftChars l := by
  induction l with
  | nil => rfl
  | cons c cs ih =>
    cases h : isJsWhitespace c with
    | true =>
      rw [trimLeftChars, if_pos h]
      exact ih
    | false =>
      rw [trimLeftChars, if_neg (by simp [h]),
        trimLeftChars, if_neg (by simp [h])]

theorem trimChars_idem (l : List Char) :
    trimChars (trimChars l) = trimChars l := by
  have hBdef : trimChars l =
      (trimLeftChars ((trimLeftChars l).reverse)).reverse := rfl
  have hstep1 : trimLeftChars (trimChars l) = trimChars l := by
    cases hr : trimChars l with
    | nil => rfl
    | cons x xs =>
      have hx : isJsWhitespace x = false := by
        obtain ⟨t, ht⟩ :=
          trimLeftChars_suffix ((trimLeftChars l).reverse)
        have hA : trimLeftChars l =
            (trimLeftChars ((trimLeftChars l).reverse)).reverse ++
              t.reverse := by
          have h2 := congrArg List.reverse ht
          rw [List.reverse_reverse] at h2
          exact h2.trans (List.reverse_append _ _)
        have hhead : (trimLeftChars l).head? = some x := by
          rw [hA, ← hBdef, hr]
          rfl
        exact trimLeftChars_head? l x hhead
      rw [trimLeftChars, if_neg (by simp [hx])]
  calc trimChars (trimChars l)
      = (trimLeftChars ((trimLeftChars (trimChars l)).reverse)).reverse := rfl
    _ = (trimLeftChars ((trimChars l).reverse)).reverse := by rw [hstep1]
    _ = (trimLeftChars
          (trimLeftChars ((trimLeftChars l).reverse))).reverse := by
        rw [hBdef, List.reverse_reverse]
    _ = (trimLeftChars ((trimLeftChars l).reverse)).reverse := by
        rw [trimLeftChars_idem]
    _ = trimChars l := rfl

theorem trimLeftChars_length_le (l : List Char) :
    (trimLeftChars l).length ≤ l.length := by
  induction l with
  | nil => exact Nat.le_refl _
  | cons c cs ih =>
    cases h : isJsWhitespace c with
    | true =>
      rw [trimLeftChars, if_pos h]
      exact Nat.le_trans ih (by simp)
    | false => rw [trimLeftChars, if_neg (by simp [h])]

theorem trimChars_length_le (l : List Char) :
    (trimChars l).length ≤ l.length := by
  unfold trimChars
  rw [List.length_reverse]
  calc (trimLeftChars ((trimLeftChars l).reverse)).length
      ≤ ((trimLeftChars l).reverse).length := trimLeftChars_length_le _
    _ = (trimLeftChars l).length := List.length_reverse _
    _ ≤ l.length := trimLeftChars_length_le l

theorem trimLeftChars_all_ws (l : List Char)
    (h : ∀ c ∈ l, isJsWhitespace c = true) : trimLeftChars l = [] := by
  induction l with
  | nil => rfl
  | cons c cs ih =>
    rw [trimLeftChars, if_pos (h c (List.mem_cons_self c cs))]
    exact ih (fun d hd => h d (List.mem_cons_of_mem c hd))

theorem trimChars_all_ws (l : List Char)
    (h : ∀ c ∈ l, isJsWhitespace c = true) : trimChars l = [] := by
  unfold trimChars
  rw [trimLeftChars_all_ws l h]
  rfl

theorem jsTrim_eq_self (s : String)
    (h : ∀ c ∈ s.data, isJsWhitespace c = false) : jsTrim s = s := by
  cases s with
  | mk d =>
    show String.mk (trimChars d) = String.mk d
    rw [trimChars_eq_self d h]

theorem jsTrim_idem (s : String) : jsTrim (jsTrim s) = jsTrim s :=
  congrArg String.mk (trimChars_idem s.data)

theorem jsTrim_length_le (s : String) : (jsTrim s).length ≤ s.length :=
  trimChars_length_le s.data

theorem charOfNat_toNat_lower :
    ∀ n, n < 123 → 97 ≤ n → (Char.ofNat n).toNat = n := by decide

theorem jsLowerChar_toNat (c : Char) :
    (jsLowerChar c).toNat =
      if 65 ≤ c.toNat ∧ c.toNat ≤ 90 then c.toNat + 32 else c.toNat := by
  unfold jsLowerChar
  by_cases h : 65 ≤ c.toNat ∧ c.toNat ≤ 90
  · rw [if_pos h, if_pos h]
    exact charOfNat_toNat_lower _ (by omega) (by omega)
  · rw [if_neg h, if_neg h]

theorem jsLowerChar_of_not_upper (c : Char)
    (h : ¬(65 ≤ c.toNat ∧ c.toNat ≤ 90)) : jsLowerChar c = c := by
  unfold jsLowerChar
  rw [if_neg h]

theorem jsLowerChar_idem (c : Char) :
    jsLowerChar (jsLowerChar c) = jsLowerChar c := by
  by_cases h : 65 ≤ c.toNat ∧ c.toNat ≤ 90
  · have hval : (jsLowerChar c).toNat = c.toNat + 32 := by
      rw [jsLowerChar_toNat, if_pos h]
    exact jsLowerChar_of_not_upper (jsLowerChar c) (by rw [hval]; omega)
  · rw [jsLowerChar_of_not_upper c h, jsLowerChar_of_not_upper c h]

theorem jsLowerChar_ws (c : Char) :
    isJsWhitespace (jsLowerChar c) = isJsWhitespace c := by
  by_cases h : 65 ≤ c.toNat ∧ c.toNat ≤ 90
  · have hval : (jsLowerChar c).toNat = c.toNat + 32 := by
      rw [jsLowerChar_toNat, if_pos h]
    have h1 : isJsWhitespace (jsLowerChar c) = false := by
      simp [isJsWhitespace, hval]
      omega
    have h2 : isJsWhitespace c = false := by
      simp [isJsWhitespace]
      omega
    rw [h1, h2]
  · rw [jsLowerChar_of_not_upper c h]

theorem jsToLower_idem (s : String) :
    jsToLower (jsToLower s) = jsToLower s := by
  cases s with
  | mk d =>
    show String.mk ((d.map jsLowerChar).map jsLowerChar) =
      String.mk (d.map jsLowerChar)
    rw [List.map_map]
    exact congrArg String.mk
      (List.map_congr_left (fun c _ => jsLowerChar_idem c))

theorem jsToLower_length (s : String) :
    (jsToLower s).length = s.length := by
  show (s.data.map jsLowerChar).length = s.data.length
  exact List.length_map s.data jsLowerChar

theorem splitSep_ne_nil (sep : Char) (l : List Char) :
    splitSep sep l ≠ [] := by
  cases l with
  | nil => simp [splitSep]
  | cons c cs =>
    rw [splitSep]
    cases splitSep sep cs with
    | nil => simp
    | cons g gs =>
      by_cases hc : c = sep
      · simp [hc]
      · simp [hc]

theorem splitSep_one (sep : Char) :
    ∀ l g, splitSep sep l = [g] → l = g := by
  intro l
  induction l with
  | nil =>
    intro g h
    simp [splitSep] at h
    rw [← h]
  | cons c cs ih =>
    intro g h
    rw [splitSep] at h
    cases hs : splitSep sep cs with
    | nil => exact absurd hs (splitSep_ne_nil sep cs)
    | cons g' gs' =>
      rw [hs] at h
      dsimp only at h
      by_cases hc : c = sep
      · rw [if_pos hc] at h
        have := congrArg List.length h
        simp at this
      · rw [if_neg hc] at h
        injection h with h1 h2
        subst h2
        subst h1
        have hcs : cs = g' := ih g' hs
        rw [hcs]

theorem splitSep_two (sep : Char) :
    ∀ l a b, splitSep sep l = [a, b] → l = a ++ sep :: b := by
  intro l
  induction l with
  | nil =>
    intro a b h
    simp [splitSep] at h
  | cons c cs ih =>
    intro a b h
    rw [splitSep] at h
    cases hs : splitSep sep cs with
    | nil => exact absurd hs (splitSep_ne_nil sep cs)
    | cons g' gs' =>
      rw [hs] at h
      dsimp only at h
      by_cases hc : c = sep
      · rw [if_pos hc] at h
        injection h with h1 h2
        injection h2 with h3 h4
        subst h1
        subst h3
        subst h4
        have hcs : cs = g' := splitSep_one sep cs g' hs
        rw [hcs, hc]
        rfl
      · rw [if_neg hc] at h
        injection h with h1 h2
        subst h2
        subst h1
        have hcs : cs = g' ++ sep :: b := ih g' b hs
        rw [hcs]
        rfl

theorem mem_splitSep (sep : Char) :
    ∀ l c, c ∈ l → c = sep ∨ ∃ g, g ∈ splitSep sep l ∧ c ∈ g := by
  intro l
  induction l with
  | nil => intro c h; simp at h
  | cons d ds ih =>
    intro c h
    rw [splitSep]
    cases hs : splitSep sep ds with
    | nil => exact absurd hs (splitSep_ne_nil sep ds)
    | cons g gs =>
      dsimp only
      rcases List.mem_cons.mp h with rfl | hmem
      · by_cases hd : c = sep
        · exact Or.inl hd
        · rw [if_neg hd]
          exact Or.inr ⟨c :: g, List.mem_cons_self _ _, List.mem_cons_self _ _⟩
      · rcases ih c hmem with hsep | ⟨g', hg', hcg'⟩
        · exact Or.inl hsep
        · rw [hs] at hg'
          by_cases hd : d = sep
          · rw [if_pos hd]
            exact Or.inr ⟨g', List.mem_cons_of_mem _ hg', hcg'⟩
          · rw [if_neg hd]
            rcases List.mem_cons.mp hg' with rfl | hg'
            · exact Or.inr ⟨d :: g', List.mem_cons_self _ _,
                List.mem_cons_of_mem d hcg'⟩
            · exact Or.inr ⟨g', List.mem_cons_of_mem _ hg', hcg'⟩

theorem splitSep_map (sep : Char) (f : Char → Char)
    (hf : ∀ c, f c = sep ↔ c = sep) :
    ∀ l, splitSep sep (l.map f) = (splitSep sep l).map (List.map f) := by
  intro l
  induction l with
  | nil => rfl
  | cons c cs ih =>
    rw [List.map_cons, splitSep, splitSep, ih]
    cases hs : splitSep sep cs with
    | nil => exact absurd hs (splitSep_ne_nil sep cs)
    | cons g gs =>
      by_cases hc : c = sep
      · rw [List.map_cons]
        dsimp only
        rw [if_pos hc, if_pos ((hf c).mpr hc)]
        simp
      · rw [List.map_cons]
        dsimp only
        rw [if_neg hc, if_neg (fun hfc => hc ((hf c).mp hfc))]
        simp

theorem not_ws_of_toNat_ge (c : Char) (h : 39 ≤ c.toNat) :
    isJsWhitespace c = false := by
  simp [isJsWhitespace]
  omega

theorem isAlnumChar_toNat_ge (c : Char) (h : isAlnumChar c = true) :
    48 ≤ c.toNat := by
  simp [isAlnumChar, isAlphaChar, isDigitChar] at h
  omega

theorem isAlphaChar_not_ws (c : Char) (h : isAlphaChar c = true) :
    isJsWhitespace c = false := by
  apply not_ws_of_toNat_ge
  simp [isAlphaChar] at h
  omega

theorem emailLocalChar_not_ws (c : Char) (h : emailLocalChar c = true) :
    isJsWhitespace c = false := by
  apply not_ws_of_toNat_ge
  simp [emailLocalChar, isAlnumChar, isAlphaChar, isDigitChar] at h
  omega

theorem emailLocalEndChar_not_ws (c : Char) (h : emailLocalEndChar c = true) :
    isJsWhitespace c = false := by
  apply not_ws_of_toNat_ge
  simp [emailLocalEndChar, isAlnumChar, isAlphaChar, isDigitChar] at h
  omega

theorem emailLocalOk_not_ws (l : List Char) (h : emailLocalOk l = true)
    (c : Char) (hc : c ∈ l) : isJsWhitespace c = false := by
  unfold emailLocalOk at h
  cases hr : l.reverse with
  | nil => rw [hr] at h; simp at h
  | cons last revBody =>
    rw [hr] at h
    dsimp only at h
    rw [Bool.and_eq_true, List.all_eq_true] at h
    have hc' : c ∈ last :: revBody := by
      rw [← hr]
      exact List.mem_reverse.mpr hc
    rcases List.mem_cons.mp hc' with rfl | hmem
    · exact emailLocalEndChar_not_ws c h.1
    · exact emailLocalChar_not_ws c (h.2 c hmem)

theorem emailLabelOk_not_ws (g : List Char) (h : emailLabelOk g = true)
    (c : Char) (hc : c ∈ g) : isJsWhitespace c = false := by
  unfold emailLabelOk at h
  cases g with
  | nil => simp at h
  | cons x xs =>
    rw [Bool.and_eq_true, List.all_eq_true] at h
    rcases List.mem_cons.mp hc with rfl | hmem
    · exact not_ws_of_toNat_ge c (by have := isAlnumChar_toNat_ge c h.1; omega)
    · have := h.2 c hmem
      apply not_ws_of_toNat_ge
      simp [isAlnumChar, isAlphaChar, isDigitChar] at this
      omega

theorem emailDomainOk_not_ws (d : List Char) (h : emailDomainOk d = true)
    (c : Char) (hc : c ∈ d) : isJsWhitespace c = false := by
  unfold emailDomainOk at h
  cases hr : (splitSep (Char.ofNat 46) d).reverse with
  | nil => rw [hr] at h; simp at h
  | cons tld revLabels =>
    rw [hr] at h
    dsimp only at h
    rw [Bool.and_eq_true, Bool.and_eq_true, Bool.and_eq_true,
      List.all_eq_true, List.all_eq_true] at h
    obtain ⟨⟨⟨hne, hlen⟩, htld⟩, hlabels⟩ := h
    rcases mem_splitSep (Char.ofNat 46) d c hc with rfl | ⟨g, hg, hcg⟩
    · decide
    · have hg' : g ∈ tld :: revLabels := by
        rw [← hr]
        exact List.mem_reverse.mpr hg
      rcases List.mem_cons.mp hg' with rfl | hmem
      · exact isAlphaChar_not_ws c (htld c hcg)
      · exact emailLabelOk_not_ws g (hlabels g hmem) c hcg

/-- Every character of a string accepted by the Zod e-mail pattern is a
non-whitespace character. -/
theorem zodEmailCheck_no_ws (s : String) (h : zodEmailCheck s = true) :
    ∀ c ∈ s.data, isJsWhitespace c = false := by
  unfold zodEmailCheck at h
  rw [Bool.and_eq_true, Bool.and_eq_true] at h
  obtain ⟨⟨hhead, hdd⟩, hsplit⟩ := h
  cases hs : splitSep (Char.ofNat 64) s.data with
  | nil => rw [hs] at hsplit; simp at hsplit
  | cons a t =>
    cases t with
    | nil => rw [hs] at hsplit; simp at hsplit
    | cons b t2 =>
      cases t2 with
      | cons x xs => rw [hs] at hsplit; simp at hsplit
      | nil =>
        rw [hs] at hsplit
        dsimp only at hsplit
        rw [Bool.and_eq_true] at hsplit
        obtain ⟨hlocal, hdomain⟩ := hsplit
        have hdecomp := splitSep_two (Char.ofNat 64) s.data a b hs
        intro c hc
        rw [hdecomp] at hc
        rcases List.mem_append.mp hc with hca | hcb
        · exact emailLocalOk_not_ws a hlocal c hca
        · rcases List.mem_cons.mp hcb with rfl | hcb
          · decide
          · exact emailDomainOk_not_ws b hdomain c hcb

theorem jsLowerChar_toNat_46 (c : Char) :
    ((jsLowerChar c).toNat = 46) ↔ (c.toNat = 46) := by
  rw [jsLowerChar_toNat]
  by_cases h : 65 ≤ c.toNat ∧ c.toNat ≤ 90
  · rw [if_pos h]
    constructor <;> intro h2 <;> omega
  · rw [if_neg h]

theorem jsLowerChar_eq_char46 (c : Char) :
    (jsLowerChar c = Char.ofNat 46) ↔ (c = Char.ofNat 46) := by
  constructor
  · intro h
    have h2 : (jsLowerChar c).toNat = 46 := by rw [h]; decide
    exact char_eq_of_toNat_eq c (Char.ofNat 46)
      (((jsLowerChar_toNat_46 c).mp h2).trans (by decide))
  · intro h
    rw [h]
    decide

theorem jsLowerChar_eq_char64 (c : Char) :
    (jsLowerChar c = Char.ofNat 64) ↔ (c = Char.ofNat 64) := by
  constructor
  · intro h
    have h2 : (jsLowerChar c).toNat = 64 := by rw [h]; decide
    rw [jsLowerChar_toNat] at h2
    by_cases hu : 65 ≤ c.toNat ∧ c.toNat ≤ 90
    · rw [if_pos hu] at h2; omega
    · rw [if_neg hu] at h2
      exact char_eq_of_toNat_eq c (Char.ofNat 64) (h2.trans (by decide))
  · intro h
    rw [h]
    decide

theorem noDoubleDot_map_lower (l : List Char) :
    noDoubleDot (l.map jsLowerChar) = noDoubleDot l := by
  induction l with
  | nil => rfl
  | cons c cs ih =>
    cases cs with
    | nil => rfl
    | cons d rest =>
      rw [List.map_cons, List.map_cons, noDoubleDot, noDoubleDot,
        ← List.map_cons]
      rw [ih]
      have h1 : ((jsLowerChar c).toNat = 46) = (c.toNat = 46) :=
        propext (jsLowerChar_toNat_46 c)
      have h2 : ((jsLowerChar d).toNat = 46) = (d.toNat = 46) :=
        propext (jsLowerChar_toNat_46 d)
      simp only [h1, h2]

theorem isAlphaChar_lower (c : Char) (h : isAlphaChar c = true) :
    isAlphaChar (jsLowerChar c) = true := by
  have hn := jsLowerChar_toNat c
  simp [isAlphaChar] at h ⊢
  by_cases hu : 65 ≤ c.toNat ∧ c.toNat ≤ 90
  · rw [if_pos hu] at hn
    omega
  · rw [if_neg hu] at hn
    omega

theorem isAlnumChar_lower (c : Char) (h : isAlnumChar c = true) :
    isAlnumChar (jsLowerChar c) = true := by
  have hn := jsLowerChar_toNat c
  simp [isAlnumChar, isAlphaChar, isDigitChar] at h ⊢
  by_cases hu : 65 ≤ c.toNat ∧ c.toNat ≤ 90
  · rw [if_pos hu] at hn
    omega
  · rw [if_neg hu] at hn
    omega

theorem emailLocalChar_lower (c : Char) (h : emailLocalChar c = true) :
    emailLocalChar (jsLowerChar c) = true := by
  have hn := jsLowerChar_toNat c
  simp [emailLocalChar, isAlnumChar, isAlphaChar, isDigitChar] at h ⊢
  by_cases hu : 65 ≤ c.toNat ∧ c.toNat ≤ 90
  · rw [if_pos hu] at hn
    omega
  · rw [if_neg hu] at hn
    omega

theorem emailLocalEndChar_lower (c : Char) (h : emailLocalEndChar c = true) :
    emailLocalEndChar (jsLowerChar c) = true := by
  have hn := jsLowerChar_toNat c
  simp [emailLocalEndChar, isAlnumChar, isAlphaChar, isDigitChar] at h ⊢
  by_cases hu : 65 ≤ c.toNat ∧ c.toNat ≤ 90
  · rw [if_pos hu] at hn
    omega
  · rw [if_neg hu] at hn
    omega

theorem emailLocalOk_lower (l : List Char) (h : emailLocalOk l = true) :
    emailLocalOk (l.map jsLowerChar) = true := by
  unfold emailLocalOk at h ⊢
  rw [(List.map_reverse jsLowerChar l).symm]
  cases hr : l.reverse with
  | nil => rw [hr] at h; simp at h
  | cons last revBody =>
    rw [List.map_cons]
    rw [hr] at h
    dsimp only at h ⊢
    rw [Bool.and_eq_true, List.all_eq_true] at h
    rw [Bool.and_eq_true, List.all_eq_true]
    refine ⟨emailLocalEndChar_lower last h.1, ?_⟩
    intro x hx
    obtain ⟨y, hy, rfl⟩ := List.mem_map.mp hx
    exact emailLocalChar_lower y (h.2 y hy)

theorem emailLabelOk_lower (g : List Char) (h : emailLabelOk g = true) :
    emailLabelOk (g.map jsLowerChar) = true := by
  unfold emailLabelOk at h ⊢
  cases g with
  | nil => simp at h
  | cons x xs =>
    rw [Bool.and_eq_true, List.all_eq_true] at h
    rw [List.map_cons]
    rw [Bool.and_eq_true, List.all_eq_true]
    refine ⟨isAlnumChar_lower x h.1, ?_⟩
    intro y hy
    obtain ⟨z, hz, rfl⟩ := List.mem_map.mp hy
    have hzc := h.2 z hz
    have hn := jsLowerChar_toNat z
    simp [isAlnumChar, isAlphaChar, isDigitChar] at hzc ⊢
    by_cases hu : 65 ≤ z.toNat ∧ z.toNat ≤ 90
    · rw [if_pos hu] at hn
      omega
    · rw [if_neg hu] at hn
      omega

theorem emailDomainOk_lower (d : List Char) (h : emailDomainOk d = true) :
    emailDomainOk (d.map jsLowerChar) = true := by
  unfold emailDomainOk at h ⊢
  rw [splitSep_map (Char.ofNat 46) jsLowerChar jsLowerChar_eq_char46 d]
  rw [(List.map_reverse (List.map jsLowerChar)
    (splitSep (Char.ofNat 46) d)).symm]
  cases hr : (splitSep (Char.ofNat 46) d).reverse with
  | nil => rw [hr] at h; simp at h
  | cons tld revLabels =>
    rw [List.map_cons]
    rw [hr] at h
    dsimp only at h ⊢
    rw [Bool.and_eq_true, Bool.and_eq_true, Bool.and_eq_true,
      List.all_eq_true, List.all_eq_true] at h
    obtain ⟨⟨⟨hne, hlen⟩, htld⟩, hlabels⟩ := h
    rw [Bool.and_eq_true, Bool.and_eq_true, Bool.and_eq_true,
      List.all_eq_true, List.all_eq_true]
    refine ⟨⟨⟨?_, ?_⟩, ?_⟩, ?_⟩
    · simp at hne ⊢
      exact hne
    · simp at hlen ⊢
      exact hlen
    · intro x hx
      obtain ⟨y, hy, rfl⟩ := List.mem_map.mp hx
      exact isAlphaChar_lower y (htld y hy)
    · intro g hg
      obtain ⟨g', hg', rfl⟩ := List.mem_map.mp hg
      exact emailLabelOk_lower g' (hlabels g' hg')

/-- The Zod e-mail pattern is closed under the `toLowerCase` transform. -/
theorem zodEmailCheck_toLower (s : String) (h : zodEmailCheck s = true) :
    zodEmailCheck (jsToLower s) = true := by
  unfold zodEmailCheck at h ⊢
  rw [Bool.and_eq_true, Bool.and_eq_true] at h
  obtain ⟨⟨hhead, hdd⟩, hsplit⟩ := h
  rw [Bool.and_eq_true, Bool.and_eq_true]
  have hdata : (jsToLower s).data = s.data.map jsLowerChar := rfl
  refine ⟨⟨?_, ?_⟩, ?_⟩
  · rw [hdata]
    cases hd : s.data with
    | nil => rfl
    | cons c cs =>
      rw [hd] at hhead
      rw [List.map_cons]
      dsimp only at hhead ⊢
      simp at hhead ⊢
      rw [jsLowerChar_toNat_46]
      exact hhead
  · rw [hdata, noDoubleDot_map_lower]
    exact hdd
  · rw [hdata,
      splitSep_map (Char.ofNat 64) jsLowerChar jsLowerChar_eq_char64 s.data]
    cases hs : splitSep (Char.ofNat 64) s.data with
    | nil => rw [hs] at hsplit; simp at hsplit
    | cons a t =>
      cases t with
      | nil => rw [hs] at hsplit; simp at hsplit
      | cons b t2 =>
        cases t2 with
        | cons x xs => rw [hs] at hsplit; simp at hsplit
        | nil =>
          rw [hs] at hsplit
          dsimp only at hsplit
          rw [Bool.and_eq_true] at hsplit
          rw [List.map_cons, List.map_cons, List.map_nil]
          dsimp only
          rw [Bool.and_eq_true]
          exact ⟨emailLocalOk_lower a hsplit.1,
            emailDomainOk_lower b hsplit.2⟩

theorem string_eq_empty_iff (s : String) : s = "" ↔ s.data = [] := by
  constructor
  · intro h
    rw [h]
  · intro h
    cases s with
    | mk d => exact congrArg String.mk h

theorem string_length_pos (s : String) (h : s ≠ "") : 1 ≤ s.length := by
  have hd : s.data ≠ [] := fun hx => h ((string_eq_empty_iff s).mpr hx)
  have : s.length = s.data.length := rfl
  rw [this]
  cases hx : s.data with
  | nil => exact absurd hx hd
  | cons c cs => simp

theorem string_length_zero (s : String) (h : s.length = 0) : s = "" := by
  apply (string_eq_empty_iff s).mpr
  have : s.data.length = 0 := h
  exact List.length_eq_zero.mp this

theorem parseName_ok (s v : String) (h : parseName (some s) = .ok v) :
    nameIssues s = [] ∧ v = jsTrim s := by
  unfold parseName at h
  dsimp only at h
  cases hn : nameIssues s with
  | nil =>
    rw [hn] at h
    dsimp only at h
    exact ⟨rfl, (Except.ok.inj h).symm⟩
  | cons e es =>
    rw [hn] at h
    dsimp only at h
    simp at h

theorem nameIssues_empty (s : String) (h : nameIssues s = []) :
    1 ≤ s.length ∧ s.length ≤ 100 := by
  unfold nameIssues at h
  by_cases h1 : s.length < 1
  · rw [if_pos h1] at h
    simp at h
  · by_cases h2 : 100 < s.length
    · rw [if_neg h1, if_pos h2] at h
      simp at h
    · omega

theorem nameIssues_of_bounds (s : String) (h1 : 1 ≤ s.length)
    (h2 : s.length ≤ 100) : nameIssues s = [] := by
  unfold nameIssues
  rw [if_neg (by omega), if_neg (by omega)]
  rfl

theorem parseMessage_ok (s v : String) (h : parseMessage (some s) = .ok v) :
    messageIssues s = [] ∧ v = jsTrim s := by
  unfold parseMessage at h
  dsimp only at h
  cases hn : messageIssues s with
  | nil =>
    rw [hn] at h
    dsimp only at h
    exact ⟨rfl, (Except.ok.inj h).symm⟩
  | cons e es =>
    rw [hn] at h
    dsimp only at h
    simp at h

theorem messageIssues_empty (s : String) (h : messageIssues s = []) :
    1 ≤ s.length ∧ s.length ≤ 1000 := by
  unfold messageIssues at h
  by_cases h1 : s.length < 1
  · rw [if_pos h1] at h
    simp at h
  · by_cases h2 : 1000 < s.length
    · rw [if_neg h1, if_pos h2] at h
      simp at h
    · omega

theorem messageIssues_of_bounds (s : String) (h1 : 1 ≤ s.length)
    (h2 : s.length ≤ 1000) : messageIssues s = [] := by
  unfold messageIssues
  rw [if_neg (by omega), if_neg (by omega)]
  rfl

theorem parseEmail_ok (s v : String) (h : parseEmail (some s) = .ok v) :
    emailIssues s = [] ∧ v = jsTrim (jsToLower s) := by
  unfold parseEmail at h
  dsimp only at h
  cases hn : emailIssues s with
  | nil =>
    rw [hn] at h
    dsimp only at h
    exact ⟨rfl, (Except.ok.inj h).symm⟩
  | cons e es =>
    rw [hn] at h
    dsimp only at h
    simp at h

theorem emailIssues_empty (s : String) (h : emailIssues s = []) :
    zodEmailCheck s = true ∧ s.length ≤ 255 := by
  unfold emailIssues at h
  cases hc : zodEmailCheck s with
  | false =>
    rw [hc] at h
    simp at h
  | true =>
    rw [hc] at h
    by_cases h2 : 255 < s.length
    · rw [if_pos h2] at h
      simp at h
    · exact ⟨rfl, by omega⟩

theorem emailIssues_of_valid (s : String) (h1 : zodEmailCheck s = true)
    (h2 : s.length ≤ 255) : emailIssues s = [] := by
  unfold emailIssues
  simp [h1, show ¬(255 < s.length) by omega]

theorem parsePhone_fixpoint (p q : Option String)
    (h : parsePhone p = .ok q) : parsePhone q = .ok q := by
  cases p with
  | none =>
    simp [parsePhone] at h
    rw [← h]
    rfl
  | some s =>
    have hdef : parsePhone (some s) =
        if phoneRefine s then .ok (some s)
        else .error ["Please enter a valid phone number"] := rfl
    rw [hdef] at h
    cases hr : phoneRefine s with
    | false => rw [hr] at h; simp at h
    | true =>
      rw [hr] at h
      simp at h
      rw [← h, hdef, hr]
      simp

theorem schemaParse_ok (r : RawLead) (v : Lead)
    (h : leadSubmissionSchemaParse r = .ok v) :
    parseName r.name = .ok v.name ∧ parseEmail r.email = .ok v.email ∧
    parsePhone r.phone = .ok v.phone ∧
    parseMessage r.message = .ok v.message := by
  unfold leadSubmissionSchemaParse at h
  cases hn : parseName r.name <;> rw [hn] at h <;>
    cases he : parseEmail r.email <;> rw [he] at h <;>
      cases hp : parsePhone r.phone <;> rw [hp] at h <;>
        cases hm : parseMessage r.message <;> rw [hm] at h <;>
          simp_all
  rw [← h]
  simp

theorem schemaParse_of_fields (r : RawLead) (v : Lead)
    (hn : parseName r.name = .ok v.name)
    (he : parseEmail r.email = .ok v.email)
    (hp : parsePhone r.phone = .ok v.phone)
    (hm : parseMessage r.message = .ok v.message) :
    leadSubmissionSchemaParse r = .ok v := by
  unfold leadSubmissionSchemaParse
  rw [hn, he, hp, hm]

/-- C9 (counterexample): a name of 101 whitespace characters is
whitespace-only yet fails validation — with `Name is too long`, because the
`.max(100)` check also runs before `.trim()` — so not every whitespace-only
name passes validation. -/
theorem whitespace_name_counterexample :
    allWhitespace (String.mk (List.replicate 101 ' ')) = true ∧
    parseName (some (String.mk (List.replicate 101 ' '))) =
      .error ["Name is too long"] :=
  ⟨by decide, by decide⟩

/-- C9 (amended): because `.min(1)` runs before `.trim()`, every
whitespace-only name (respectively message) within the 100- (respectively
1000-) character maximum passes validation and normalizes to the empty
string, which is exactly what the appended row carries in its name cell;
the `required` message fires for the literally empty string only. -/
theorem whitespace_only_passes_validation :
    (∀ s : String, allWhitespace s = true → s ≠ "" → s.length ≤ 100 →
      parseName (some s) = .ok "") ∧
    (∀ s : String, allWhitespace s = true → s ≠ "" → s.length ≤ 1000 →
      parseMessage (some s) = .ok "") ∧
    (∀ s : String, "Name is required" ∈ nameIssues s ↔ s = "") ∧
    (∀ s : String, "Message is required" ∈ messageIssues s ↔ s = "") ∧
    (∀ (ts : String) (v : Lead), v.name = "" →
      (leadRow ts v).get? 1 = some "") := by
  have htrim : ∀ s : String, allWhitespace s = true → jsTrim s = "" := by
    intro s hws
    have hall : ∀ c ∈ s.data, isJsWhitespace c = true :=
      List.all_eq_true.mp hws
    show String.mk (trimChars s.data) = ""
    rw [trimChars_all_ws s.data hall]
  refine ⟨?_, ?_, ?_, ?_, ?_⟩
  · intro s hws hne hlen
    have hiss := nameIssues_of_bounds s (string_length_pos s hne) hlen
    have hdef : parseName (some s) =
        (match nameIssues s with
         | [] => Except.ok (jsTrim s)
         | es => Except.error es) := rfl
    rw [hdef, hiss]
    dsimp only
    rw [htrim s hws]
  · intro s hws hne hlen
    have hiss := messageIssues_of_bounds s (string_length_pos s hne) hlen
    have hdef : parseMessage (some s) =
        (match messageIssues s with
         | [] => Except.ok (jsTrim s)
         | es => Except.error es) := rfl
    rw [hdef, hiss]
    dsimp only
    rw [htrim s hws]
  · intro s
    constructor
    · intro hmem
      unfold nameIssues at hmem
      by_cases h1 : s.length < 1
      · exact string_length_zero s (by omega)
      · rw [if_neg h1] at hmem
        by_cases h2 : 100 < s.length
        · rw [if_pos h2] at hmem
          simp at hmem
        · rw [if_neg h2] at hmem
          simp at hmem
    · intro hs
      rw [hs]
      decide
  · intro s
    constructor
    · intro hmem
      unfold messageIssues at hmem
      by_cases h1 : s.length < 1
      · exact string_length_zero s (by omega)
      · rw [if_neg h1] at hmem
        by_cases h2 : 1000 < s.length
        · rw [if_pos h2] at hmem
          simp at hmem
        · rw [if_neg h2] at hmem
          simp at hmem
    · intro hs
      rw [hs]
      decide
  · intro ts v h
    simp [leadRow, h]

/-- C9 (amended, witness): a single-space name and a two-space message
validate to the empty string, and the row cell for an empty name is the
empty string. -/
theorem whitespace_only_passes_validation_witness :
    allWhitespace " " = true ∧ (" " : String) ≠ "" ∧
    (" " : String).length ≤ 100 ∧
    parseName (some " ") = .ok "" ∧
    allWhitespace "  " = true ∧ ("  " : String) ≠ "" ∧
    ("  " : String).length ≤ 1000 ∧
    parseMessage (some "  ") = .ok "" ∧
    (Lead.mk "" "a@b.com" none "x").name = "" ∧
    (leadRow "January 1, 2025 at 9:00 AM"
      ⟨"", "a@b.com", none, "x"⟩).get? 1 = some "" :=
  ⟨by decide, by decide, by decide,
   whitespace_only_passes_validation.1 " " (by decide) (by decide) (by decide),
   by decide, by decide, by decide,
   whitespace_only_passes_validation.2.1 "  " (by decide) (by decide)
     (by decide),
   rfl,
   whitespace_only_passes_validation.2.2.2.2 "January 1, 2025 at 9:00 AM"
     ⟨"", "a@b.com", none, "x"⟩ rfl⟩

/-- C10 (counterexample): the record with name `" "` (one space) is
accepted, normalizing the name to the empty string — and re-validating
that normalized record is rejected with `Name is required`, so
re-validating an accepted record does not always return it unchanged. -/
theorem revalidation_counterexample :
    leadSubmissionSchemaParse ⟨some " ", some "a@b.com", none, some "x"⟩ =
      .ok ⟨"", "a@b.com", none, "x"⟩ ∧
    leadSubmissionSchemaParse (rawOfLead ⟨"", "a@b.com", none, "x"⟩) =
      .error ["Name is required"] :=
  ⟨by decide, by decide⟩

/-- C10 (amended): the e-mail check runs before lowercasing and trimming,
so any e-mail containing whitespace (in particular leading or trailing
whitespace around a valid address) is rejected with the e-mail validation
message; for every accepted e-mail the normalized value is already trimmed
and lowercase (trimming and lowercasing it again are the identity and it
still passes the pattern); and re-validating an accepted record returns it
unchanged provided its normalized name and message are non-empty (the
whitespace-only counterexample being the only obstruction). -/
theorem email_prevalidation_and_revalidation :
    (∀ s : String, (∃ c ∈ s.data, isJsWhitespace c = true) →
      ∃ es, parseEmail (some s) = .error es ∧
        "Please enter a valid email address" ∈ es) ∧
    (∀ s v, parseEmail (some s) = .ok v →
      jsTrim v = v ∧ jsToLower v = v ∧ zodEmailCheck v = true) ∧
    (∀ r v, leadSubmissionSchemaParse r = .ok v → v.name ≠ "" →
      v.message ≠ "" → leadSubmissionSchemaParse (rawOfLead v) = .ok v) := by
  refine ⟨?_, ?_, ?_⟩
  · rintro s ⟨c, hc, hws⟩
    have hcheck : zodEmailCheck s = false := by
      cases hcc : zodEmailCheck s with
      | false => rfl
      | true =>
        exact absurd hws (by rw [zodEmailCheck_no_ws s hcc c hc]; simp)
    have hshape : emailIssues s =
        "Please enter a valid email address" ::
          (if 255 < s.length then ["Email is too long"] else []) := by
      simp [emailIssues, hcheck]
    refine ⟨emailIssues s, ?_, ?_⟩
    · have hdef : parseEmail (some s) =
          (match emailIssues s with
           | [] => Except.ok (jsTrim (jsToLower s))
           | es => Except.error es) := rfl
      rw [hdef, hshape]
    · rw [hshape]
      exact List.mem_cons_self _ _
  · intro s v h
    obtain ⟨hiss, hval⟩ := parseEmail_ok s v h
    obtain ⟨hcheck, _⟩ := emailIssues_empty s hiss
    have hlow := zodEmailCheck_toLower s hcheck
    have hnows := zodEmailCheck_no_ws (jsToLower s) hlow
    have htr : jsTrim (jsToLower s) = jsToLower s := jsTrim_eq_self _ hnows
    have hv : v = jsToLower s := hval.trans htr
    subst hv
    exact ⟨htr, jsToLower_idem s, hlow⟩
  · intro r v h hname hmsg
    obtain ⟨hn, he, hp, hm⟩ := schemaParse_ok r v h
    apply schemaParse_of_fields
    · show parseName (some v.name) = .ok v.name
      cases rn : r.name with
      | none =>
        rw [rn] at hn
        exact absurd hn (by simp [parseName])
      | some s0 =>
        rw [rn] at hn
        obtain ⟨hiss, hval⟩ := parseName_ok s0 v.name hn
        obtain ⟨_, h2⟩ := nameIssues_empty s0 hiss
        have hvl2 : v.name.length ≤ 100 := by
          rw [hval]
          exact le_trans (jsTrim_length_le s0) h2
        have hiss2 :=
          nameIssues_of_bounds v.name (string_length_pos _ hname) hvl2
        have hdef : parseName (some v.name) =
            (match nameIssues v.name with
             | [] => Except.ok (jsTrim v.name)
             | es => Except.error es) := rfl
        rw [hdef, hiss2]
        dsimp only
        rw [hval, jsTrim_idem]
    · show parseEmail (some v.email) = .ok v.email
      cases re : r.email with
      | none =>
        rw [re] at he
        exact absurd he (by simp [parseEmail])
      | some s0 =>
        rw [re] at he
        obtain ⟨hiss, hval⟩ := parseEmail_ok s0 v.email he
        obtain ⟨hcheck, hlen⟩ := emailIssues_empty s0 hiss
        have hlow := zodEmailCheck_toLower s0 hcheck
        have hnows := zodEmailCheck_no_ws (jsToLower s0) hlow
        have htr : jsTrim (jsToLower s0) = jsToLower s0 :=
          jsTrim_eq_self _ hnows
        have hve : v.email = jsToLower s0 := hval.trans htr
        have hlen2 : v.email.length ≤ 255 := by
          rw [hve, jsToLower_length]
          exact hlen
        have hcheck2 : zodEmailCheck v.email = true := by
          rw [hve]
          exact hlow
        have hiss2 := emailIssues_of_valid v.email hcheck2 hlen2
        have hdef : parseEmail (some v.email) =
            (match emailIssues v.email with
             | [] => Except.ok (jsTrim (jsToLower v.email))
             | es => Except.error es) := rfl
        rw [hdef, hiss2]
        dsimp only
        have hlower2 : jsToLower v.email = v.email := by
          rw [hve, jsToLower_idem]
        rw [hlower2,
          jsTrim_eq_self v.email (by rw [hve]; exact hnows)]
    · show parsePhone v.phone = .ok v.phone
      exact parsePhone_fixpoint r.phone v.phone hp
    · show parseMessage (some v.message) = .ok v.message
      cases rm : r.message with
      | none =>
        rw [rm] at hm
        exact absurd hm (by simp [parseMessage])
      | some s0 =>
        rw [rm] at hm
        obtain ⟨hiss, hval⟩ := parseMessage_ok s0 v.message hm
        obtain ⟨_, h2⟩ := messageIssues_empty s0 hiss
        have hvl2 : v.message.length ≤ 1000 := by
          rw [hval]
          exact le_trans (jsTrim_length_le s0) h2
        have hiss2 :=
          messageIssues_of_bounds v.message (string_length_pos _ hmsg) hvl2
        have hdef : parseMessage (some v.message) =
            (match messageIssues v.message with
             | [] => Except.ok (jsTrim v.message)
             | es => Except.error es) := rfl
        rw [hdef, hiss2]
        dsimp only
        rw [hval, jsTrim_idem]

/-- C10 (amended, witness): a whitespace-padded address is rejected; the
accepted upper-case address `JOHN@EXAMPLE.COM` normalizes to an already
trimmed, lowercase, still-valid value; and a record with padded name and
message re-validates to itself after normalization. -/
theorem email_prevalidation_and_revalidation_witness :
    (∃ c ∈ (" john@example.com" : String).data, isJsWhitespace c = true) ∧
    (∃ es, parseEmail (some " john@example.com") = .error es ∧
      "Please enter a valid email address" ∈ es) ∧
    parseEmail (some "JOHN@EXAMPLE.COM") = .ok "john@example.com" ∧
    (jsTrim "john@example.com" = "john@example.com" ∧
     jsToLower "john@example.com" = "john@example.com" ∧
     zodEmailCheck "john@example.com" = true) ∧
    leadSubmissionSchemaParse
      ⟨some " John Doe ", some "JOHN@EXAMPLE.COM",
       some "(555) 123-4567", some " Hi "⟩ =
      .ok ⟨"John Doe", "john@example.com", some "(555) 123-4567", "Hi"⟩ ∧
    leadSubmissionSchemaParse
      (rawOfLead
        ⟨"John Doe", "john@example.com", some "(555) 123-4567", "Hi"⟩) =
      .ok ⟨"John Doe", "john@example.com", some "(555) 123-4567", "Hi"⟩ :=
  ⟨by decide,
   email_prevalidation_and_revalidation.1 " john@example.com" (by decide),
   by decide,
   email_prevalidation_and_revalidation.2.1 "JOHN@EXAMPLE.COM"
     "john@example.com" (by decide),
   by decide,
   email_prevalidation_and_revalidation.2.2
     ⟨some " John Doe ", some "JOHN@EXAMPLE.COM",
      some "(555) 123-4567", some " Hi "⟩
     ⟨"John Doe", "john@example.com", some "(555) 123-4567", "Hi"⟩
     (by decide) (by decide) (by decide)⟩

end SmartSheetConnect
